import Mathlib

/-!
Verification development for the dense-retriever estimator core
(`dense_retriever/estimators/base.py` and
`dense_retriever/preprocessing/data_tokenization.py`).

Numpy float arrays are modelled as lists of lists of real numbers
(floating point modelled by exact real arithmetic); python ints are `Nat`,
floats that carry configuration values are `ℚ`.  Fallible python code
(a raising numpy reduction, a dict `KeyError`, a dataset-column error)
is modelled with `Option`/`Except`.
-/

namespace DenseRetriever

/-! ### softmax / compute_f1 (`estimators/base.py`, lines 21-31)

`softmax(x)` is `e_x = np.exp(x - np.max(x)); return e_x / e_x.sum(axis=0)`.

* `np.max(x)` is the maximum over *all* entries of the 2-D array and
  raises `ValueError` on a zero-size array — modelled by the `Option`
  wrapper in `softmax`, which fails exactly when the array has no entry.
* `e_x.sum(axis=0)` sums each *column* (axis 0), and the broadcast
  division divides entry `(i, j)` by the sum of column `j`.
-/

/-- `np.max` on the flattened, non-empty entry list (the guard for the
empty case lives in `softmax`). -/
def listMax : List ℝ → ℝ
  | [] => 0
  | x :: xs => xs.foldl max x

/-- Sum of column `j` of a 2-D array (`.sum(axis=0)` at column `j`);
missing entries of ragged rows default to `0` (numpy arrays are
rectangular, so theorems carry rectangularity hypotheses). -/
def colSum (m : List (List ℝ)) (j : ℕ) : ℝ :=
  (m.map (fun r => r.getD j 0)).sum

/-- `np.exp(x - M)` elementwise. -/
noncomputable def expShift (M : ℝ) (m : List (List ℝ)) : List (List ℝ) :=
  m.map (fun r => r.map (fun v => Real.exp (v - M)))

/-- The arithmetic of `softmax` on a 2-D array with at least one entry:
subtract the global max, exponentiate, divide each entry by its column
sum. -/
noncomputable def softmaxVal (x : List (List ℝ)) : List (List ℝ) :=
  let e := expShift (listMax x.flatten) x
  e.map (fun r => r.mapIdx (fun j v => v / colSum e j))

/-- `softmax` from `estimators/base.py`: `np.max` raises on a zero-size
array, hence `none` when the array has no entries. -/
noncomputable def softmax (x : List (List ℝ)) : Option (List (List ℝ)) :=
  if x.flatten.isEmpty then none else some (softmaxVal x)

/-- `compute_f1` from `estimators/base.py`: softmax the logits, then hand
predictions and references to the externally loaded metric
(`load_metric("f1").compute`), modelled by the parameter `metricCompute`. -/
noncomputable def computeF1 {Out : Type} (metricCompute : List (List ℝ) → List ℝ → Out)
    (logits : List (List ℝ)) (labels : List ℝ) : Option Out :=
  (softmax logits).map (fun preds => metricCompute preds labels)

/-- Row `i` of an optional matrix (for stating concrete counterexamples). -/
def rowOf (o : Option (List (List ℝ))) (i : ℕ) : List ℝ :=
  (o.getD []).getD i []

/-! ### The estimator (`estimators/base.py`)

`BaseEstimator.__init__` resolves `MODEL_TYPES[model_type]` (a plain dict
lookup, so an absent key raises `KeyError`), then calls the
`_load_model` hook, then resolves device, effective eval batch size and
checkpoint strategy.  The model object is mutable state (weights, device
placement, train/eval mode); everything else assigned in `__init__` is
configuration.  Python field names beginning with an underscore are
modelled camel-cased (`_eval_batch_size ↦ evalBatchSize`,
`_save_strategy ↦ saveStrategy`, `_save_steps ↦ saveSteps`,
`_continue_train ↦ continueTrain`). -/

/-- The two values of the `MODEL_TYPES` dict. -/
inductive ModelClass where
  | bertDotBCE
  | bertDotPairwiseRanking
deriving DecidableEq, Repr

/-- The `MODEL_TYPES` dict of `estimators/base.py`. -/
def MODEL_TYPES : List (String × ModelClass) :=
  [("bert-dot-bce", ModelClass.bertDotBCE),
   ("bert-dot-pairwise-ranking", ModelClass.bertDotPairwiseRanking)]

/-- Python dict lookup, `none` modelling the raised `KeyError`. -/
def dictLookup {V : Type} : List (String × V) → String → Option V
  | [], _ => none
  | (k, v) :: t, n => if n = k then some v else dictLookup t n

/-- Exceptions construction can surface.  `keyError` is what the dict
lookup `MODEL_TYPES[model_type]` raises; `unknownModelTypeError` is the
exception class the spec names (never raised by the code, present so the
spec claim is statable); `notImplementedError` is the abstract-hook
signal. -/
inductive EstErr where
  | keyError (key : String)
  | unknownModelTypeError (key : String)
  | notImplementedError
deriving DecidableEq, Repr

/-- Observable calls into the hooks during construction. -/
inductive Event where
  | modelLoadInvoked
deriving DecidableEq, Repr

/-- The mutable model object: opaque weights plus device placement and
train/eval mode (`model.to(device)`, `model.eval()` mutate these). -/
structure ModelState (W : Type) where
  weights : W
  device : String
  evalMode : Bool
deriving DecidableEq, Repr

/-- The keyword arguments of `BaseEstimator.__init__` (the `metric_fn`
argument is kept opaque of type `μ`). -/
structure Params (μ : Type) where
  model_name_or_path : String
  model_type : String
  train_steps : ℕ
  num_epochs : ℕ
  batch_size : ℕ
  accum_steps : ℕ
  lr : ℚ := 3 / 100000
  metric_fn : μ
  device : Option String := none
  eval_batch_size : Option ℕ := none
  save_steps : Option ℕ := none
  continue_train : Bool := false
  in_batch_neg : Bool := false

/-- The state of a constructed `BaseEstimator`. -/
structure Estimator (W μ : Type) where
  model_name_or_path : String
  model_class : ModelClass
  train_steps : ℕ
  num_epochs : ℕ
  batch_size : ℕ
  accum_steps : ℕ
  lr : ℚ
  in_batch_neg : Bool
  metric_fn : μ
  model : ModelState W
  device : String
  evalBatchSize : ℕ
  saveStrategy : String
  saveSteps : ℕ
  continueTrain : Bool

/-- `BaseEstimator.__init__`, in source order: dict lookup of
`model_type` (raising `KeyError` on an unknown key, before anything
else), then the `_load_model` hook (its invocation is logged as an
`Event`), then device / eval-batch-size / checkpoint-strategy
resolution.  `cudaAvailable` models `torch.cuda.is_available()`. -/
def initEstimator {W μ : Type} (cudaAvailable : Bool) (p : Params μ)
    (loadModel : Unit → Except EstErr (ModelState W)) :
    Except EstErr (Estimator W μ) × List Event :=
  match dictLookup MODEL_TYPES p.model_type with
  | none => (Except.error (EstErr.keyError p.model_type), [])
  | some mc =>
    match loadModel () with
    | Except.error e => (Except.error e, [Event.modelLoadInvoked])
    | Except.ok m =>
      (Except.ok
        { model_name_or_path := p.model_name_or_path
          model_class := mc
          train_steps := p.train_steps
          num_epochs := p.num_epochs
          batch_size := p.batch_size
          accum_steps := p.accum_steps
          lr := p.lr
          in_batch_neg := p.in_batch_neg
          metric_fn := p.metric_fn
          model := m
          device :=
            match p.device with
            | none => if cudaAvailable then "cuda" else "cpu"
            | some d => d
          evalBatchSize := p.eval_batch_size.getD p.batch_size
          saveStrategy :=
            match p.save_steps with
            | none => "epoch"
            | some _ => "steps"
          saveSteps := p.save_steps.getD 0
          continueTrain := p.continue_train },
       [Event.modelLoadInvoked])

/-- The `TrainingArguments` record built inside `BaseEstimator.fit`
(only the fields the code sets). -/
structure TrainingArguments where
  max_steps : ℕ
  num_train_epochs : ℕ
  per_device_train_batch_size : ℕ
  per_device_eval_batch_size : ℕ
  gradient_accumulation_steps : ℕ
  learning_rate : ℚ
  warmup_steps : ℕ
  weight_decay : ℚ
  logging_steps : ℕ
  lr_scheduler_type : String
  evaluation_strategy : String
  eval_steps : ℕ
  save_strategy : String
  save_steps : ℕ
  output_dir : String
deriving DecidableEq, Repr

/-- The `TrainingArguments(...)` construction in `BaseEstimator.fit`,
field for field. -/
def fitTrainArgs {W μ : Type} (e : Estimator W μ) : TrainingArguments :=
  { max_steps := e.train_steps
    num_train_epochs := e.num_epochs
    per_device_train_batch_size := e.batch_size
    per_device_eval_batch_size := e.batch_size
    gradient_accumulation_steps := e.accum_steps
    learning_rate := e.lr
    warmup_steps := 500
    weight_decay := 1 / 100
    logging_steps := 500
    lr_scheduler_type := "constant"
    evaluation_strategy := "steps"
    eval_steps := 5000
    save_strategy := e.saveStrategy
    save_steps := e.saveSteps
    output_dir := "./tmp" }

/-- Effect of `BaseEstimator.fit` on the estimator state:
`trainer.train` mutates the model weights in place (the optimization
loop is the external driver, abstracted as `trainerUpdate`); no
configuration field is assigned anywhere in `fit`. -/
def fitState {W μ : Type} (trainerUpdate : W → W) (e : Estimator W μ) :
    Estimator W μ :=
  { e with model := { e.model with weights := trainerUpdate e.model.weights } }

/-- `torch.utils.data.DataLoader(split, b, shuffle=False)`: the split in
order, cut into consecutive batches of size `b` (last batch possibly
short).  The `DataLoader` requires `b ≥ 1`; theorems carry `0 < b`. -/
def chunkList {α : Type} : ℕ → List α → List (List α)
  | _, [] => []
  | b, x :: xs => (x :: xs.take (b - 1)) :: chunkList b (xs.drop (b - 1))
termination_by _ l => l.length
decreasing_by simp [List.length_drop]; omega

/-- `extract_ids(dataset, id_column)` returns `dataset['test'][id_column]`:
the id column of the test split, in row order (`idOf` models selecting
`id_column` of one row). -/
def extract_ids {Ex ι : Type} (idOf : Ex → ι) (test : List Ex) : List ι :=
  test.map idOf

/-- `np.vstack(blocks)`: raises `ValueError` when given no arrays,
otherwise concatenates the blocks in order. -/
def npVstack {α : Type} (blocks : List (List α)) : Option (List α) :=
  if blocks.isEmpty then none else some blocks.flatten

/-- `BaseEstimator.predict(dataset_dir, out_dir, id_col)` after the
dataset hook produced test split `test`: build the sequential
un-shuffled dataloader with the effective eval batch size, extract the
ids, move the model to the device and set eval mode, embed every batch
with `get_embed` (modelled as `getEmbed` applied to the model weights),
stack the per-batch blocks with `np.vstack`.  Returns the value that
`predict` returns and hands to `_save_inference_results` (paired with
the ids), and the estimator state after the call. -/
def predictFull {Ex Emb ι W μ : Type} (getEmbed : W → List Ex → List Emb)
    (idOf : Ex → ι) (e : Estimator W μ) (test : List Ex) :
    Option (List Emb × List ι) × Estimator W μ :=
  let batches := chunkList e.evalBatchSize test
  let ids := extract_ids idOf test
  let movedModel : ModelState W :=
    { e.model with device := e.device, evalMode := true }
  let blocks := batches.map (fun b => getEmbed movedModel.weights b)
  ((npVstack blocks).map (fun embs => (embs, ids)),
   { e with model := movedModel })

/-- The configuration fields of an estimator (everything `__init__`
assigns except the mutable model object). -/
structure ConfigView (μ : Type) where
  model_name_or_path : String
  model_class : ModelClass
  train_steps : ℕ
  num_epochs : ℕ
  batch_size : ℕ
  accum_steps : ℕ
  lr : ℚ
  in_batch_neg : Bool
  metric_fn : μ
  device : String
  evalBatchSize : ℕ
  saveStrategy : String
  saveSteps : ℕ
  continueTrain : Bool

/-- Project an estimator onto its configuration fields. -/
def configView {W μ : Type} (e : Estimator W μ) : ConfigView μ :=
  { model_name_or_path := e.model_name_or_path
    model_class := e.model_class
    train_steps := e.train_steps
    num_epochs := e.num_epochs
    batch_size := e.batch_size
    accum_steps := e.accum_steps
    lr := e.lr
    in_batch_neg := e.in_batch_neg
    metric_fn := e.metric_fn
    device := e.device
    evalBatchSize := e.evalBatchSize
    saveStrategy := e.saveStrategy
    saveSteps := e.saveSteps
    continueTrain := e.continueTrain }

/-! ### Tokenization (`preprocessing/data_tokenization.py`)

A loaded dataset is modelled as an association list from column name to
column content (content type `V` opaque; the tokenizer maps a text
column to its `input_ids`/`attention_mask`/`token_type_ids` outputs).
`dataset.map(tokenizer …)` adds the three tokenizer output columns;
`remove_columns` and `rename_column` raise when the named column is
absent, and `rename_column` also raises when the new name already
exists — all modelled with `Option`.  `tokenize_train_dataset`'s
loading/saving/zipping side effects are out of scope; modelled is the
column transformation it applies to the loaded dataset. -/

/-- Column names of a dataset, in order. -/
def keysOf {V : Type} (cols : List (String × V)) : List String :=
  cols.map Prod.fst

/-- Access column `name` (`example[column_name]` inside the `map`
lambda); `none` models the raised `KeyError`. -/
def lookupCol {V : Type} : List (String × V) → String → Option V
  | [], _ => none
  | (k, v) :: t, n => if k = n then some v else lookupCol t n

/-- `dataset.remove_columns(name)`: raises if the column is absent. -/
def removeColumn {V : Type} (cols : List (String × V)) (name : String) :
    Option (List (String × V)) :=
  if name ∈ keysOf cols then
    some (cols.filter (fun kv => decide (kv.1 ≠ name)))
  else none

/-- Rename one entry if its key matches. -/
def renameEntry {V : Type} (oldName newName : String) (kv : String × V) :
    String × V :=
  if kv.1 = oldName then (newName, kv.2) else kv

/-- `dataset.rename_column(old, new)`: raises if `old` is absent or
`new` already exists. -/
def renameColumn {V : Type} (cols : List (String × V))
    (oldName newName : String) : Option (List (String × V)) :=
  if oldName ∈ keysOf cols then
    if newName ∈ keysOf cols then none
    else some (cols.map (renameEntry oldName newName))
  else none

/-- `_rename_torch_columns(dataset, column_name)`. -/
def renameTorchColumns {V : Type} (cols : List (String × V))
    (columnName : String) : Option (List (String × V)) := do
  let c1 ← renameColumn cols "input_ids" (columnName ++ "_input_ids")
  let c2 ← renameColumn c1 "attention_mask" (columnName ++ "_attention_mask")
  renameColumn c2 "token_type_ids" (columnName ++ "_token_type_ids")

/-- `_encode_text_column(dataset, tokenizer, column_name, …)`: the map
adds the tokenizer's `input_ids`/`attention_mask`/`token_type_ids`
columns computed from the text column (`tok` bundles the three outputs),
then the text column is removed and the three outputs renamed with the
column-name prefix. -/
def encodeTextColumn {V : Type} (tok : V → V × V × V)
    (cols : List (String × V)) (columnName : String) :
    Option (List (String × V)) := do
  let v ← lookupCol cols columnName
  let withTok := cols ++
    [("input_ids", (tok v).1), ("attention_mask", (tok v).2.1),
     ("token_type_ids", (tok v).2.2)]
  let removed ← removeColumn withTok columnName
  renameTorchColumns removed columnName

/-- The column transformation of `tokenize_train_dataset`: encode the
`query` column, then the `doc` column. -/
def tokenizeTrainColumns {V : Type} (tok : V → V × V × V)
    (cols : List (String × V)) : Option (List (String × V)) :=
  (encodeTextColumn tok cols "query").bind
    (fun c => encodeTextColumn tok c "doc")

/-! ## Theorems -/

/-- Concatenating the sequential batches gives back the split in order. -/
theorem chunkList_flatten {α : Type} (b : ℕ) :
    ∀ l : List α, (chunkList b l).flatten = l
  | [] => by simp [chunkList]
  | x :: xs => by
    rw [chunkList, List.flatten_cons, chunkList_flatten b (xs.drop (b - 1))]
    simp [List.take_append_drop]
termination_by l => l.length
decreasing_by simp [List.length_drop]; omega

/-- The dataloader produces no batch only for the empty split. -/
theorem chunkList_eq_nil_iff {α : Type} (b : ℕ) (l : List α) :
    chunkList b l = [] ↔ l = [] := by
  cases l <;> simp [chunkList]

/-- Core behaviour of `predict` when `get_embed` embeds row-wise
(`f` per row) and the test split is non-empty: the stacked result is the
row-wise embedding of the whole split, paired with the ids in the same
row order. -/
theorem predictFull_spec {Ex Emb ι W μ : Type}
    (getEmbed : W → List Ex → List Emb) (idOf : Ex → ι)
    (e : Estimator W μ) (test : List Ex) (f : Ex → Emb)
    (hG : ∀ bt, getEmbed e.model.weights bt = bt.map f)
    (hne : test ≠ []) :
    (predictFull getEmbed idOf e test).1 =
      some (test.map f, extract_ids idOf test) := by
  have hchunk : chunkList e.evalBatchSize test ≠ [] := by
    simpa [chunkList_eq_nil_iff] using hne
  have hblocks :
      (chunkList e.evalBatchSize test).map
        (fun bt => getEmbed e.model.weights bt) =
      (chunkList e.evalBatchSize test).map (fun bt => bt.map f) := by
    simp [hG]
  simp only [predictFull, npVstack, hblocks]
  rw [if_neg (by simpa [List.isEmpty_iff, List.map_eq_nil_iff] using hchunk)]
  rw [← List.map_flatten, chunkList_flatten]
  rfl

/-- Fields of a successfully constructed estimator in terms of the
constructor arguments. -/
theorem initEstimator_ok {W μ : Type} (cuda : Bool) (p : Params μ)
    (loadModel : Unit → Except EstErr (ModelState W))
    (e : Estimator W μ) (log : List Event)
    (h : initEstimator cuda p loadModel = (Except.ok e, log)) :
    e.train_steps = p.train_steps ∧ e.num_epochs = p.num_epochs ∧
    e.batch_size = p.batch_size ∧ e.accum_steps = p.accum_steps ∧
    e.lr = p.lr ∧
    e.evalBatchSize = p.eval_batch_size.getD p.batch_size ∧
    e.saveStrategy =
      (match p.save_steps with | none => "epoch" | some _ => "steps") ∧
    e.saveSteps = p.save_steps.getD 0 ∧
    e.continueTrain = p.continue_train ∧
    e.in_batch_neg = p.in_batch_neg ∧
    e.model_name_or_path = p.model_name_or_path ∧
    e.metric_fn = p.metric_fn := by
  unfold initEstimator at h
  cases hdl : dictLookup MODEL_TYPES p.model_type with
  | none => rw [hdl] at h; simp at h
  | some mc =>
    rw [hdl] at h
    cases hlm : loadModel () with
    | error err => rw [hlm] at h; simp at h
    | ok m =>
      rw [hlm] at h
      obtain ⟨he, -⟩ := Prod.mk.injEq .. ▸ h
      cases Except.ok.inj he
      simp

/-- C1: when the dataset hook returns test split `test` and the model's
`get_embed` embeds one row at a time (`f` per row), `predict` succeeds
on a non-empty split and returns the embedding rows stacked in batch
order, which is exactly one embedding per row of the split, aligned with
the ids extracted from the id column: row `i` of the embeddings is
`f` of the example that contributed entry `i` of the ids. -/
theorem predict_rows_align_with_ids {Ex Emb ι W μ : Type}
    (getEmbed : W → List Ex → List Emb) (idOf : Ex → ι)
    (e : Estimator W μ) (test : List Ex) (f : Ex → Emb)
    (hG : ∀ bt, getEmbed e.model.weights bt = bt.map f)
    (hne : test ≠ []) :
    (predictFull getEmbed idOf e test).1 =
      some (test.map f, extract_ids idOf test) ∧
    (test.map f).length = (extract_ids idOf test).length ∧
    ∀ i : ℕ, (test.map f)[i]? = (test[i]?).map f ∧
      (extract_ids idOf test)[i]? = (test[i]?).map idOf := by
  refine ⟨predictFull_spec getEmbed idOf e test f hG hne, by
    simp [extract_ids], fun i => ⟨?_, ?_⟩⟩
  · simp [List.getElem?_map]
  · simp [extract_ids, List.getElem?_map]

/-- A concrete estimator used to instantiate theorems (weights and
metric are `Unit`). -/
def sampleEstimator (bs : ℕ) : Estimator Unit Unit :=
  { model_name_or_path := "some-model"
    model_class := ModelClass.bertDotBCE
    train_steps := 100
    num_epochs := 3
    batch_size := 8
    accum_steps := 2
    lr := 3 / 100000
    in_batch_neg := false
    metric_fn := ()
    model := { weights := (), device := "cpu", evalMode := false }
    device := "cpu"
    evalBatchSize := bs
    saveStrategy := "epoch"
    saveSteps := 0
    continueTrain := false }

/-- C1 witness: the 5-row synthetic dataset `[0, 1, 2, 3, 4]` where the
id equals the row index and each row `n` embeds to `n + 10`, with eval
batch size 2. -/
theorem predict_rows_align_with_ids_witness :
    (∀ bt : List ℕ, bt.map (fun n => n + 10) = bt.map (fun n => n + 10)) ∧
    ([0, 1, 2, 3, 4] : List ℕ) ≠ [] ∧
    ((predictFull (fun (_ : Unit) (bt : List ℕ) => bt.map (fun n => n + 10))
        (fun n => n) (sampleEstimator 2) [0, 1, 2, 3, 4]).1 =
      some ([0, 1, 2, 3, 4].map (fun n => n + 10),
        extract_ids (fun n => n) [0, 1, 2, 3, 4]) ∧
     ([0, 1, 2, 3, 4].map (fun n => n + 10)).length =
       (extract_ids (fun n : ℕ => n) [0, 1, 2, 3, 4]).length ∧
     ∀ i : ℕ, ([0, 1, 2, 3, 4].map (fun n => n + 10))[i]? =
         (([0, 1, 2, 3, 4] : List ℕ)[i]?).map (fun n => n + 10) ∧
       (extract_ids (fun n : ℕ => n) [0, 1, 2, 3, 4])[i]? =
         (([0, 1, 2, 3, 4] : List ℕ)[i]?).map (fun n => n)) :=
  ⟨fun _ => rfl, by simp,
    predict_rows_align_with_ids
      (fun (_ : Unit) (bt : List ℕ) => bt.map (fun n => n + 10))
      (fun n => n) (sampleEstimator 2) [0, 1, 2, 3, 4]
      (fun n => n + 10) (fun _ => rfl) (by simp)⟩

/-- Keys absent from an association list are not found. -/
theorem dictLookup_eq_none {V : Type} (l : List (String × V)) (n : String)
    (h : n ∉ l.map Prod.fst) : dictLookup l n = none := by
  induction l with
  | nil => rfl
  | cons kv t ih =>
    simp only [List.map_cons, List.mem_cons] at h
    push_neg at h
    simp [dictLookup, h.1, ih h.2]

/-- C3 counterexample: constructing with the unsupported model type
`"foo"` raises the `KeyError` of the dict lookup `MODEL_TYPES["foo"]`,
not an `UnknownModelTypeError` (no such exception exists in the code). -/
theorem construct_unknown_type_keyerror_not_unknownmodeltypeerror :
    initEstimator false
        { model_name_or_path := "some-model", model_type := "foo"
          train_steps := 100, num_epochs := 3, batch_size := 8
          accum_steps := 2, metric_fn := () }
        (fun _ => Except.ok { weights := (), device := "cpu", evalMode := false }) =
      ((Except.error (EstErr.keyError "foo") :
          Except EstErr (Estimator Unit Unit)), []) ∧
    (Except.error (EstErr.keyError "foo") :
        Except EstErr (Estimator Unit Unit)) ≠
      Except.error (EstErr.unknownModelTypeError "foo") := by
  constructor
  · rfl
  · simp

/-- C3 (amended): for every `model_type` outside the supported set
`{bert-dot-bce, bert-dot-pairwise-ranking}` construction fails with the
dict lookup's `KeyError` (not `UnknownModelTypeError`), and it fails
before the model-loading hook is invoked: the hook-invocation log is
empty. -/
theorem construct_unknown_type_fails_before_load {W μ : Type}
    (cuda : Bool) (p : Params μ)
    (loadModel : Unit → Except EstErr (ModelState W))
    (h : p.model_type ∉ ["bert-dot-bce", "bert-dot-pairwise-ranking"]) :
    initEstimator cuda p loadModel =
      (Except.error (EstErr.keyError p.model_type), []) ∧
    Event.modelLoadInvoked ∉ (initEstimator cuda p loadModel).2 := by
  have hdl : dictLookup MODEL_TYPES p.model_type = none := by
    apply dictLookup_eq_none
    intro hmem
    exact h (by simpa [ MODEL_TYPES] using hmem)
  constructor
  · unfold initEstimator
    rw [hdl]
  · unfold initEstimator
    rw [hdl]
    simp

/-- C3 witness: the unsupported model type `"foo"`. -/
theorem construct_unknown_type_fails_before_load_witness :
    "foo" ∉ ["bert-dot-bce", "bert-dot-pairwise-ranking"] ∧
    (initEstimator false
        { model_name_or_path := "some-model", model_type := "foo"
          train_steps := 100, num_epochs := 3, batch_size := 8
          accum_steps := 2, metric_fn := (), save_steps := some 7 }
        (fun _ => Except.error (EstErr.notImplementedError :
            EstErr) (α := ModelState Unit)) =
      (Except.error (EstErr.keyError "foo"), []) ∧
     Event.modelLoadInvoked ∉
       (initEstimator false
          { model_name_or_path := "some-model", model_type := "foo"
            train_steps := 100, num_epochs := 3, batch_size := 8
            accum_steps := 2, metric_fn := (), save_steps := some 7 }
          (fun _ => Except.error (EstErr.notImplementedError :
              EstErr) (α := ModelState Unit))).2) :=
  ⟨by decide,
   construct_unknown_type_fails_before_load (μ := Unit) false
     { model_name_or_path := "some-model", model_type := "foo"
       train_steps := 100, num_epochs := 3, batch_size := 8
       accum_steps := 2, metric_fn := (), save_steps := some 7 }
     (fun _ => Except.error (EstErr.notImplementedError :
         EstErr) (α := ModelState Unit))
     (by decide)⟩

/-- C4: an estimator constructed with `train_steps=100`, `num_epochs=3`,
`batch_size=8`, `accum_steps=2`, `lr=3e-5` builds, in `fit`, a training
configuration with `learning_rate=3e-5`,
`gradient_accumulation_steps=2`, `warmup_steps=500`, `eval_steps=5000`,
`weight_decay=0.01`, logging every 500 steps and constant learning-rate
schedule, whatever the remaining constructor arguments were. -/
theorem fit_train_args_fixed_fields {W μ : Type} (cuda : Bool)
    (p : Params μ) (loadModel : Unit → Except EstErr (ModelState W))
    (e : Estimator W μ) (log : List Event)
    (hts : p.train_steps = 100) (hep : p.num_epochs = 3)
    (hbs : p.batch_size = 8) (has : p.accum_steps = 2)
    (hlr : p.lr = 3 / 100000)
    (hinit : initEstimator cuda p loadModel = (Except.ok e, log)) :
    (fitTrainArgs e).learning_rate = 3 / 100000 ∧
    (fitTrainArgs e).gradient_accumulation_steps = 2 ∧
    (fitTrainArgs e).warmup_steps = 500 ∧
    (fitTrainArgs e).eval_steps = 5000 ∧
    (fitTrainArgs e).weight_decay = 1 / 100 ∧
    (fitTrainArgs e).logging_steps = 500 ∧
    (fitTrainArgs e).lr_scheduler_type = "constant" ∧
    (fitTrainArgs e).max_steps = 100 ∧
    (fitTrainArgs e).num_train_epochs = 3 ∧
    (fitTrainArgs e).per_device_train_batch_size = 8 := by
  obtain ⟨h1, h2, h3, h4, h5, -⟩ :=
    initEstimator_ok cuda p loadModel e log hinit
  simp [fitTrainArgs, h1, h2, h3, h4, h5, hts, hep, hbs, has, hlr]

/-- The parameters of the C4 scenario (all other arguments exercise
non-default values). -/
def scenarioParams : Params Unit :=
  { model_name_or_path := "some-model", model_type := "bert-dot-bce"
    train_steps := 100, num_epochs := 3, batch_size := 8
    accum_steps := 2, lr := 3 / 100000, metric_fn := ()
    device := some "cuda:1", eval_batch_size := some 64
    save_steps := some 1000, continue_train := true
    in_batch_neg := true }

/-- The hook used by witnesses: returns a trivial model. -/
def okHook : Unit → Except EstErr (ModelState Unit) :=
  fun _ => Except.ok { weights := (), device := "cpu", evalMode := false }

/-- The estimator that `initEstimator` builds from `scenarioParams`. -/
def scenarioEstimator : Estimator Unit Unit :=
  { model_name_or_path := "some-model"
    model_class := ModelClass.bertDotBCE
    train_steps := 100, num_epochs := 3, batch_size := 8
    accum_steps := 2, lr := 3 / 100000, in_batch_neg := true
    metric_fn := ()
    model := { weights := (), device := "cpu", evalMode := false }
    device := "cuda:1", evalBatchSize := 64
    saveStrategy := "steps", saveSteps := 1000, continueTrain := true }

/-- C4 witness: the scenario parameters constructed concretely. -/
theorem fit_train_args_fixed_fields_witness :
    scenarioParams.train_steps = 100 ∧ scenarioParams.num_epochs = 3 ∧
    scenarioParams.batch_size = 8 ∧ scenarioParams.accum_steps = 2 ∧
    scenarioParams.lr = 3 / 100000 ∧
    initEstimator false scenarioParams okHook =
      (Except.ok scenarioEstimator, [Event.modelLoadInvoked]) ∧
    ((fitTrainArgs scenarioEstimator).learning_rate = 3 / 100000 ∧
     (fitTrainArgs scenarioEstimator).gradient_accumulation_steps = 2 ∧
     (fitTrainArgs scenarioEstimator).warmup_steps = 500 ∧
     (fitTrainArgs scenarioEstimator).eval_steps = 5000 ∧
     (fitTrainArgs scenarioEstimator).weight_decay = 1 / 100 ∧
     (fitTrainArgs scenarioEstimator).logging_steps = 500 ∧
     (fitTrainArgs scenarioEstimator).lr_scheduler_type = "constant" ∧
     (fitTrainArgs scenarioEstimator).max_steps = 100 ∧
     (fitTrainArgs scenarioEstimator).num_train_epochs = 3 ∧
     (fitTrainArgs scenarioEstimator).per_device_train_batch_size = 8) :=
  ⟨rfl, rfl, rfl, rfl, rfl, rfl,
   fit_train_args_fixed_fields false scenarioParams okHook
     scenarioEstimator [Event.modelLoadInvoked]
     rfl rfl rfl rfl rfl rfl⟩

/-- C5: constructing with `save_steps=None` resolves the epoch-based
checkpoint strategy, constructing with `save_steps=1000` resolves the
step-based strategy saving every 1000 steps, and in both cases `fit`
hands exactly the resolved strategy and interval to the training
configuration. -/
theorem save_strategy_resolution {W μ : Type} :
    (∀ (cuda : Bool) (p : Params μ)
       (loadModel : Unit → Except EstErr (ModelState W))
       (e : Estimator W μ) (log : List Event),
       p.save_steps = none →
       initEstimator cuda p loadModel = (Except.ok e, log) →
       e.saveStrategy = "epoch" ∧
       (fitTrainArgs e).save_strategy = "epoch") ∧
    (∀ (cuda : Bool) (p : Params μ)
       (loadModel : Unit → Except EstErr (ModelState W))
       (e : Estimator W μ) (log : List Event),
       p.save_steps = some 1000 →
       initEstimator cuda p loadModel = (Except.ok e, log) →
       e.saveStrategy = "steps" ∧ e.saveSteps = 1000 ∧
       (fitTrainArgs e).save_strategy = "steps" ∧
       (fitTrainArgs e).save_steps = 1000) := by
  constructor
  · intro cuda p loadModel e log hss hinit
    obtain ⟨-, -, -, -, -, -, h7, h8, -⟩ :=
      initEstimator_ok cuda p loadModel e log hinit
    rw [hss] at h7 h8
    exact ⟨h7, by simp [fitTrainArgs, h7]⟩
  · intro cuda p loadModel e log hss hinit
    obtain ⟨-, -, -, -, -, -, h7, h8, -⟩ :=
      initEstimator_ok cuda p loadModel e log hinit
    rw [hss] at h7 h8
    exact ⟨h7, h8, by simp [fitTrainArgs, h7], by simp [fitTrainArgs, h8]⟩

/-- Parameters identical to `scenarioParams` except that no `save_steps`
and no `eval_batch_size` are supplied. -/
def defaultedParams : Params Unit :=
  { scenarioParams with save_steps := none, eval_batch_size := none }

/-- The estimator built from `defaultedParams`. -/
def defaultedEstimator : Estimator Unit Unit :=
  { scenarioEstimator with
      saveStrategy := "epoch", saveSteps := 0, evalBatchSize := 8 }

/-- C5 witness: `save_steps=None` on `defaultedParams` gives the epoch
strategy, `save_steps=1000` on `stepParams1000` gives the step strategy. -/
theorem save_strategy_resolution_witness :
    defaultedParams.save_steps = none ∧
    initEstimator false defaultedParams okHook =
      (Except.ok defaultedEstimator, [Event.modelLoadInvoked]) ∧
    (defaultedEstimator.saveStrategy = "epoch" ∧
     (fitTrainArgs defaultedEstimator).save_strategy = "epoch") ∧
    ({ scenarioParams with save_steps := some 1000 } :
        Params Unit).save_steps = some 1000 ∧
    initEstimator false { scenarioParams with save_steps := some 1000 }
        okHook =
      (Except.ok { scenarioEstimator with saveSteps := 1000 },
       [Event.modelLoadInvoked]) ∧
    (({ scenarioEstimator with saveSteps := 1000 } :
         Estimator Unit Unit).saveStrategy = "steps" ∧
     ({ scenarioEstimator with saveSteps := 1000 } :
         Estimator Unit Unit).saveSteps = 1000 ∧
     (fitTrainArgs { scenarioEstimator with saveSteps := 1000 }).save_strategy
       = "steps" ∧
     (fitTrainArgs { scenarioEstimator with saveSteps := 1000 }).save_steps
       = 1000) :=
  ⟨rfl, rfl,
   (save_strategy_resolution (W := Unit) (μ := Unit)).1 false
     defaultedParams okHook defaultedEstimator [Event.modelLoadInvoked]
     rfl rfl,
   rfl, rfl,
   (save_strategy_resolution (W := Unit) (μ := Unit)).2 false
     { scenarioParams with save_steps := some 1000 } okHook
     { scenarioEstimator with saveSteps := 1000 } [Event.modelLoadInvoked]
     rfl rfl⟩

/-- C6: when `eval_batch_size` is not supplied the effective evaluation
batch size equals `batch_size`; and for a row-wise `get_embed` on a
non-empty test split, `predict` returns one embedding row per split row
whatever positive eval batch size the estimator carries — overriding
`eval_batch_size` changes only the batch grouping, never the number of
returned rows. -/
theorem eval_batch_size_default_and_rowcount
    {Ex Emb ι W μ : Type} :
    (∀ (cuda : Bool) (p : Params μ)
       (loadModel : Unit → Except EstErr (ModelState W))
       (e : Estimator W μ) (log : List Event),
       p.eval_batch_size = none →
       initEstimator cuda p loadModel = (Except.ok e, log) →
       e.evalBatchSize = p.batch_size) ∧
    (∀ (e : Estimator W μ) (b1 b2 : ℕ)
       (getEmbed : W → List Ex → List Emb) (idOf : Ex → ι)
       (f : Ex → Emb) (test : List Ex),
       0 < b1 → 0 < b2 →
       (∀ bt, getEmbed e.model.weights bt = bt.map f) →
       test ≠ [] →
       ((predictFull getEmbed idOf { e with evalBatchSize := b1 }
           test).1.map (fun pr => pr.1.length) = some test.length ∧
        (predictFull getEmbed idOf { e with evalBatchSize := b2 }
           test).1.map (fun pr => pr.1.length) = some test.length)) := by
  constructor
  · intro cuda p loadModel e log hebs hinit
    obtain ⟨-, -, -, -, -, h6, -⟩ :=
      initEstimator_ok cuda p loadModel e log hinit
    rw [hebs] at h6
    exact h6
  · intro e b1 b2 getEmbed idOf f test hb1 hb2 hG hne
    constructor
    · rw [predictFull_spec getEmbed idOf { e with evalBatchSize := b1 }
        test f hG hne]
      simp
    · rw [predictFull_spec getEmbed idOf { e with evalBatchSize := b2 }
        test f hG hne]
      simp

/-- C6 witness: defaulted construction gives eval batch size 8 = batch
size, and batch sizes 2 and 3 both give 5 embedding rows on the 5-row
split. -/
theorem eval_batch_size_default_and_rowcount_witness :
    defaultedParams.eval_batch_size = none ∧
    initEstimator false defaultedParams okHook =
      (Except.ok defaultedEstimator, [Event.modelLoadInvoked]) ∧
    defaultedEstimator.evalBatchSize = defaultedParams.batch_size ∧
    (0 : ℕ) < 2 ∧ (0 : ℕ) < 3 ∧
    ([0, 1, 2, 3, 4] : List ℕ) ≠ [] ∧
    ((predictFull (fun (_ : Unit) (bt : List ℕ) => bt.map (fun n => n + 10))
        (fun n => n) { sampleEstimator 7 with evalBatchSize := 2 }
        [0, 1, 2, 3, 4]).1.map (fun pr => pr.1.length) = some 5 ∧
     (predictFull (fun (_ : Unit) (bt : List ℕ) => bt.map (fun n => n + 10))
        (fun n => n) { sampleEstimator 7 with evalBatchSize := 3 }
        [0, 1, 2, 3, 4]).1.map (fun pr => pr.1.length) = some 5) :=
  ⟨rfl, rfl,
   (@eval_batch_size_default_and_rowcount ℕ ℕ ℕ Unit Unit).1 false
     defaultedParams okHook defaultedEstimator [Event.modelLoadInvoked]
     rfl rfl,
   by decide, by decide, by simp,
   (@eval_batch_size_default_and_rowcount ℕ ℕ ℕ Unit Unit).2 (sampleEstimator 7) 2 3
     (fun (_ : Unit) (bt : List ℕ) => bt.map (fun n => n + 10))
     (fun n => n) (fun n => n + 10) [0, 1, 2, 3, 4]
     (by decide) (by decide) (fun _ => rfl) (by simp)⟩

/-- C7: neither `fit` (whose training loop mutates only the model
weights) nor `predict` (which moves the model to the device and sets
eval mode) changes any configuration field set at construction: the
configuration projection of the estimator state is invariant under both
entry points. -/
theorem config_frame_under_fit_and_predict
    {Ex Emb ι W μ : Type} (trainerUpdate : W → W) (e : Estimator W μ)
    (getEmbed : W → List Ex → List Emb) (idOf : Ex → ι)
    (test : List Ex) :
    configView (fitState trainerUpdate e) = configView e ∧
    configView (predictFull getEmbed idOf e test).2 = configView e :=
  ⟨rfl, rfl⟩

/-- C9: whatever `eval_batch_size` was supplied at construction, the
training configuration built by `fit` sets the per-device evaluation
batch size to the training `batch_size`; the supplied override ends up
only in the effective eval batch size that `predict` uses for its batch
grouping. -/
theorem fit_eval_batch_size_is_train_batch_size {W μ : Type}
    (cuda : Bool) (p : Params μ)
    (loadModel : Unit → Except EstErr (ModelState W))
    (e : Estimator W μ) (log : List Event)
    (hinit : initEstimator cuda p loadModel = (Except.ok e, log)) :
    (fitTrainArgs e).per_device_eval_batch_size = p.batch_size ∧
    (fitTrainArgs e).per_device_train_batch_size = p.batch_size ∧
    e.evalBatchSize = p.eval_batch_size.getD p.batch_size := by
  obtain ⟨-, -, h3, -, -, h6, -⟩ :=
    initEstimator_ok cuda p loadModel e log hinit
  exact ⟨by simp [fitTrainArgs, h3], by simp [fitTrainArgs, h3], h6⟩

/-- C9 witness: `scenarioParams` overrides `eval_batch_size` to 64 while
`batch_size` is 8; `fit` still evaluates with batches of 8. -/
theorem fit_eval_batch_size_is_train_batch_size_witness :
    initEstimator false scenarioParams okHook =
      (Except.ok scenarioEstimator, [Event.modelLoadInvoked]) ∧
    ((fitTrainArgs scenarioEstimator).per_device_eval_batch_size =
       scenarioParams.batch_size ∧
     (fitTrainArgs scenarioEstimator).per_device_train_batch_size =
       scenarioParams.batch_size ∧
     scenarioEstimator.evalBatchSize =
       scenarioParams.eval_batch_size.getD scenarioParams.batch_size) :=
  ⟨rfl,
   fit_eval_batch_size_is_train_batch_size false scenarioParams okHook
     scenarioEstimator [Event.modelLoadInvoked] rfl⟩

/-- Keys of a concatenated column list. -/
theorem keysOf_append {V : Type} (A B : List (String × V)) :
    keysOf (A ++ B) = keysOf A ++ keysOf B := by
  simp [keysOf]

/-- A found key is among the keys. -/
theorem lookupCol_mem_keysOf {V : Type} (l : List (String × V))
    (n : String) (v : V) (h : lookupCol l n = some v) : n ∈ keysOf l := by
  induction l with
  | nil => simp [lookupCol] at h
  | cons kv t ih =>
    obtain ⟨k, w⟩ := kv
    by_cases hk : k = n
    · subst hk; simp [keysOf]
    · rw [lookupCol, if_neg hk] at h
      simpa [keysOf] using Or.inr (by simpa [keysOf] using ih h)

/-- Lookup misses keys that are absent. -/
theorem lookupCol_eq_none_of_not_mem {V : Type} (l : List (String × V))
    (n : String) (h : n ∉ keysOf l) : lookupCol l n = none := by
  induction l with
  | nil => rfl
  | cons kv t ih =>
    obtain ⟨k, w⟩ := kv
    simp only [keysOf, List.map_cons, List.mem_cons] at h
    push_neg at h
    rw [lookupCol, if_neg (fun hkn => h.1 hkn.symm)]
    exact ih (by simpa [keysOf] using h.2)

/-- Lookup in a concatenation, hit in the left part. -/
theorem lookupCol_append_some {V : Type} (A B : List (String × V))
    (n : String) (v : V) (h : lookupCol A n = some v) :
    lookupCol (A ++ B) n = some v := by
  induction A with
  | nil => simp [lookupCol] at h
  | cons kv t ih =>
    obtain ⟨k, w⟩ := kv
    by_cases hk : k = n
    · rw [lookupCol, if_pos hk] at h
      rw [List.cons_append, lookupCol, if_pos hk]
      exact h
    · rw [lookupCol, if_neg hk] at h
      rw [List.cons_append, lookupCol, if_neg hk]
      exact ih h

/-- Lookup in a concatenation, miss in the left part. -/
theorem lookupCol_append_none {V : Type} (A B : List (String × V))
    (n : String) (h : lookupCol A n = none) :
    lookupCol (A ++ B) n = lookupCol B n := by
  induction A with
  | nil => simp
  | cons kv t ih =>
    obtain ⟨k, w⟩ := kv
    by_cases hk : k = n
    · rw [lookupCol, if_pos hk] at h
      simp at h
    · rw [lookupCol, if_neg hk] at h
      rw [List.cons_append, lookupCol, if_neg hk]
      exact ih h

/-- Filtering away one column name does not change other lookups. -/
theorem lookupCol_filter_ne {V : Type} (l : List (String × V))
    (c n : String) (hne : n ≠ c) :
    lookupCol (l.filter (fun kv => decide (kv.1 ≠ c))) n = lookupCol l n := by
  induction l with
  | nil => rfl
  | cons kv t ih =>
    obtain ⟨k, w⟩ := kv
    by_cases hk : k = c
    · subst hk
      rw [List.filter_cons_of_neg (by simp)]
      rw [ih, lookupCol, if_neg (fun hkn => hne hkn.symm)]
    · rw [List.filter_cons_of_pos (by simpa using hk)]
      by_cases hkn : k = n
      · rw [lookupCol, if_pos hkn, lookupCol, if_pos hkn]
      · rw [lookupCol, if_neg hkn, lookupCol, if_neg hkn, ih]

/-- Keys surviving the removal filter were keys before, and differ from
the removed name. -/
theorem mem_keysOf_filter {V : Type} (l : List (String × V))
    (c n : String)
    (h : n ∈ keysOf (l.filter (fun kv => decide (kv.1 ≠ c)))) :
    n ∈ keysOf l ∧ n ≠ c := by
  simp only [keysOf, List.mem_map] at h
  obtain ⟨kv, hkv, hkv1⟩ := h
  rw [List.mem_filter] at hkv
  subst hkv1
  refine ⟨?_, by simpa using hkv.2⟩
  simp only [keysOf, List.mem_map]
  exact ⟨kv, hkv.1, rfl⟩

/-- Renaming a key that does not occur is the identity. -/
theorem map_renameEntry_id {V : Type} (oldName newName : String)
    (l : List (String × V)) (h : oldName ∉ keysOf l) :
    l.map (renameEntry oldName newName) = l := by
  induction l with
  | nil => rfl
  | cons kv t ih =>
    obtain ⟨k, w⟩ := kv
    simp only [keysOf, List.map_cons, List.mem_cons] at h
    push_neg at h
    rw [List.map_cons, renameEntry, if_neg (fun hk => h.1 hk.symm),
      ih (by simpa [keysOf] using h.2)]

/-- `remove_columns` on a present column filters it out. -/
theorem removeColumn_spec {V : Type} (l : List (String × V)) (c : String)
    (h : c ∈ keysOf l) :
    removeColumn l c = some (l.filter (fun kv => decide (kv.1 ≠ c))) := by
  simp [removeColumn, h]

/-- `rename_column` on a present old name and fresh new name maps the
rename over the entries. -/
theorem renameColumn_spec {V : Type} (l : List (String × V))
    (oldName newName : String) (h1 : oldName ∈ keysOf l)
    (h2 : newName ∉ keysOf l) :
    renameColumn l oldName newName =
      some (l.map (renameEntry oldName newName)) := by
  simp [renameColumn, h1, h2]

/-- Closed form of `_encode_text_column` on a dataset whose column
names avoid the three tokenizer output names and the three prefixed
names: the text column is replaced by the three prefixed tokenizer
output columns (appended at the end). -/
theorem encodeTextColumn_spec {V : Type} (tok : V → V × V × V)
    (cols : List (String × V)) (c : String) (v : V)
    (hlook : lookupCol cols c = some v)
    (hc1 : ("input_ids" : String) ≠ c)
    (hc2 : ("attention_mask" : String) ≠ c)
    (hc3 : ("token_type_ids" : String) ≠ c)
    (hn1 : c ++ "_input_ids" ≠ "input_ids")
    (hn2 : c ++ "_input_ids" ≠ "attention_mask")
    (hn3 : c ++ "_input_ids" ≠ "token_type_ids")
    (hm1 : c ++ "_attention_mask" ≠ c ++ "_input_ids")
    (hm2 : c ++ "_attention_mask" ≠ "attention_mask")
    (hm3 : c ++ "_attention_mask" ≠ "token_type_ids")
    (hk1 : c ++ "_token_type_ids" ≠ c ++ "_input_ids")
    (hk2 : c ++ "_token_type_ids" ≠ c ++ "_attention_mask")
    (hk3 : c ++ "_token_type_ids" ≠ "token_type_ids")
    (hfresh : ∀ n ∈ keysOf cols,
      n ≠ "input_ids" ∧ n ≠ "attention_mask" ∧ n ≠ "token_type_ids" ∧
      n ≠ c ++ "_input_ids" ∧ n ≠ c ++ "_attention_mask" ∧
      n ≠ c ++ "_token_type_ids") :
    encodeTextColumn tok cols c = some
      ((cols.filter (fun kv => decide (kv.1 ≠ c))) ++
        [(c ++ "_input_ids", (tok v).1),
         (c ++ "_attention_mask", (tok v).2.1),
         (c ++ "_token_type_ids", (tok v).2.2)]) := by
  have hmem : c ∈ keysOf cols := lookupCol_mem_keysOf _ _ _ hlook
  have hFfresh : ∀ n ∈ keysOf (cols.filter (fun kv => decide (kv.1 ≠ c))),
      n ≠ "input_ids" ∧ n ≠ "attention_mask" ∧ n ≠ "token_type_ids" ∧
      n ≠ c ++ "_input_ids" ∧ n ≠ c ++ "_attention_mask" ∧
      n ≠ c ++ "_token_type_ids" :=
    fun n hn => hfresh n (mem_keysOf_filter _ _ _ hn).1
  have hremove : removeColumn (cols ++
      [("input_ids", (tok v).1), ("attention_mask", (tok v).2.1),
       ("token_type_ids", (tok v).2.2)]) c = some
      ((cols.filter (fun kv => decide (kv.1 ≠ c))) ++
       [("input_ids", (tok v).1), ("attention_mask", (tok v).2.1),
        ("token_type_ids", (tok v).2.2)]) := by
    rw [removeColumn_spec _ _
      (by rw [keysOf_append]; exact List.mem_append_left _ hmem)]
    rw [List.filter_append]
    congr 1
    simp [hc1, hc2, hc3]
  have hr1 : renameColumn
      ((cols.filter (fun kv => decide (kv.1 ≠ c))) ++
       [("input_ids", (tok v).1), ("attention_mask", (tok v).2.1),
        ("token_type_ids", (tok v).2.2)]) "input_ids" (c ++ "_input_ids")
      = some
      ((cols.filter (fun kv => decide (kv.1 ≠ c))) ++
       [(c ++ "_input_ids", (tok v).1), ("attention_mask", (tok v).2.1),
        ("token_type_ids", (tok v).2.2)]) := by
    rw [renameColumn_spec _ _ _
      (by rw [keysOf_append]
          exact List.mem_append_right _ (by simp [keysOf]))
      (by rw [keysOf_append]
          intro hmm
          rcases List.mem_append.1 hmm with h | h
          · exact (hFfresh _ h).2.2.2.1 rfl
          · simp only [keysOf, List.map_cons, List.map_nil,
              List.mem_cons, List.not_mem_nil, or_false] at h
            rcases h with h | h | h
            · exact hn1 h
            · exact hn2 h
            · exact hn3 h)]
    rw [List.map_append, map_renameEntry_id _ _ _
      (fun hmm => (hFfresh _ hmm).1 rfl)]
    simp [renameEntry]
  have hr2 : renameColumn
      ((cols.filter (fun kv => decide (kv.1 ≠ c))) ++
       [(c ++ "_input_ids", (tok v).1), ("attention_mask", (tok v).2.1),
        ("token_type_ids", (tok v).2.2)]) "attention_mask"
      (c ++ "_attention_mask") = some
      ((cols.filter (fun kv => decide (kv.1 ≠ c))) ++
       [(c ++ "_input_ids", (tok v).1),
        (c ++ "_attention_mask", (tok v).2.1),
        ("token_type_ids", (tok v).2.2)]) := by
    rw [renameColumn_spec _ _ _
      (by rw [keysOf_append]
          exact List.mem_append_right _ (by simp [keysOf]))
      (by rw [keysOf_append]
          intro hmm
          rcases List.mem_append.1 hmm with h | h
          · exact (hFfresh _ h).2.2.2.2.1 rfl
          · simp only [keysOf, List.map_cons, List.map_nil,
              List.mem_cons, List.not_mem_nil, or_false] at h
            rcases h with h | h | h
            · exact hm1 h
            · exact hm2 h
            · exact hm3 h)]
    rw [List.map_append, map_renameEntry_id _ _ _
      (fun hmm => (hFfresh _ hmm).2.1 rfl)]
    simp [renameEntry]
    exact fun h => absurd h hn2
  have hr3 : renameColumn
      ((cols.filter (fun kv => decide (kv.1 ≠ c))) ++
       [(c ++ "_input_ids", (tok v).1),
        (c ++ "_attention_mask", (tok v).2.1),
        ("token_type_ids", (tok v).2.2)]) "token_type_ids"
      (c ++ "_token_type_ids") = some
      ((cols.filter (fun kv => decide (kv.1 ≠ c))) ++
       [(c ++ "_input_ids", (tok v).1),
        (c ++ "_attention_mask", (tok v).2.1),
        (c ++ "_token_type_ids", (tok v).2.2)]) := by
    rw [renameColumn_spec _ _ _
      (by rw [keysOf_append]
          exact List.mem_append_right _ (by simp [keysOf]))
      (by rw [keysOf_append]
          intro hmm
          rcases List.mem_append.1 hmm with h | h
          · exact (hFfresh _ h).2.2.2.2.2 rfl
          · simp only [keysOf, List.map_cons, List.map_nil,
              List.mem_cons, List.not_mem_nil, or_false] at h
            rcases h with h | h | h
            · exact hk1 h
            · exact hk2 h
            · exact hk3 h)]
    rw [List.map_append, map_renameEntry_id _ _ _
      (fun hmm => (hFfresh _ hmm).2.2.1 rfl)]
    simp [renameEntry]
    exact ⟨fun h => absurd h hn3, fun h => absurd h hm3⟩
  simp only [encodeTextColumn, renameTorchColumns, hlook, Option.bind_eq_bind,
    Option.some_bind, hremove, hr1, hr2, hr3]

/-- C10: on any dataset whose column names include `query` and `doc` and
avoid the tokenizer output names and the prefixed names,
`tokenize_train_dataset` produces columns in which the tokenizer outputs
appear only under the prefixed names `query_input_ids`,
`query_attention_mask`, `query_token_type_ids`, `doc_input_ids`,
`doc_attention_mask`, `doc_token_type_ids`; the `query` and `doc` text
columns are removed, and no unprefixed `input_ids`, `attention_mask` or
`token_type_ids` column remains. -/
theorem tokenize_train_prefixed_columns_only {V : Type}
    (tok : V → V × V × V) (cols : List (String × V)) (qv dv : V)
    (hq : lookupCol cols "query" = some qv)
    (hd : lookupCol cols "doc" = some dv)
    (hfresh : ∀ n ∈ keysOf cols,
      n ≠ "input_ids" ∧ n ≠ "attention_mask" ∧ n ≠ "token_type_ids" ∧
      n ≠ "query_input_ids" ∧ n ≠ "query_attention_mask" ∧
      n ≠ "query_token_type_ids" ∧ n ≠ "doc_input_ids" ∧
      n ≠ "doc_attention_mask" ∧ n ≠ "doc_token_type_ids") :
    tokenizeTrainColumns tok cols = some
      (((cols.filter (fun kv => decide (kv.1 ≠ "query"))).filter
          (fun kv => decide (kv.1 ≠ "doc"))) ++
       [("query_input_ids", (tok qv).1),
        ("query_attention_mask", (tok qv).2.1),
        ("query_token_type_ids", (tok qv).2.2),
        ("doc_input_ids", (tok dv).1),
        ("doc_attention_mask", (tok dv).2.1),
        ("doc_token_type_ids", (tok dv).2.2)]) ∧
    (∀ res, tokenizeTrainColumns tok cols = some res →
      "query" ∉ keysOf res ∧ "doc" ∉ keysOf res ∧
      "input_ids" ∉ keysOf res ∧ "attention_mask" ∉ keysOf res ∧
      "token_type_ids" ∉ keysOf res ∧
      lookupCol res "query_input_ids" = some (tok qv).1 ∧
      lookupCol res "query_attention_mask" = some (tok qv).2.1 ∧
      lookupCol res "query_token_type_ids" = some (tok qv).2.2 ∧
      lookupCol res "doc_input_ids" = some (tok dv).1 ∧
      lookupCol res "doc_attention_mask" = some (tok dv).2.1 ∧
      lookupCol res "doc_token_type_ids" = some (tok dv).2.2) := by
  have e1 := encodeTextColumn_spec tok cols "query" qv hq
    (by decide) (by decide) (by decide) (by decide) (by decide)
    (by decide) (by decide) (by decide) (by decide) (by decide)
    (by decide) (by decide)
    (fun n hn => by
      obtain ⟨a1, a2, a3, a4, a5, a6, -⟩ := hfresh n hn
      exact ⟨a1, a2, a3, a4, a5, a6⟩)
  rw [show "query" ++ "_input_ids" = "query_input_ids" from rfl,
    show "query" ++ "_attention_mask" = "query_attention_mask" from rfl,
    show "query" ++ "_token_type_ids" = "query_token_type_ids" from rfl]
    at e1
  have hlook2 : lookupCol
      ((cols.filter (fun kv => decide (kv.1 ≠ "query"))) ++
       [("query_input_ids", (tok qv).1),
        ("query_attention_mask", (tok qv).2.1),
        ("query_token_type_ids", (tok qv).2.2)]) "doc" = some dv := by
    apply lookupCol_append_some
    rw [lookupCol_filter_ne _ _ _ (by decide)]
    exact hd
  have hfresh2 : ∀ n ∈ keysOf
      ((cols.filter (fun kv => decide (kv.1 ≠ "query"))) ++
       [("query_input_ids", (tok qv).1),
        ("query_attention_mask", (tok qv).2.1),
        ("query_token_type_ids", (tok qv).2.2)]),
      n ≠ "input_ids" ∧ n ≠ "attention_mask" ∧ n ≠ "token_type_ids" ∧
      n ≠ "doc_input_ids" ∧ n ≠ "doc_attention_mask" ∧
      n ≠ "doc_token_type_ids" := by
    intro n hn
    rw [keysOf_append] at hn
    rcases List.mem_append.1 hn with h | h
    · obtain ⟨a1, a2, a3, -, -, -, a7, a8, a9⟩ :=
        hfresh n (mem_keysOf_filter _ _ _ h).1
      exact ⟨a1, a2, a3, a7, a8, a9⟩
    · simp only [keysOf, List.map_cons, List.map_nil, List.mem_cons,
        List.not_mem_nil, or_false] at h
      rcases h with rfl | rfl | rfl
      · exact ⟨by decide, by decide, by decide, by decide, by decide,
          by decide⟩
      · exact ⟨by decide, by decide, by decide, by decide, by decide,
          by decide⟩
      · exact ⟨by decide, by decide, by decide, by decide, by decide,
          by decide⟩
  have e2 := encodeTextColumn_spec tok
    ((cols.filter (fun kv => decide (kv.1 ≠ "query"))) ++
     [("query_input_ids", (tok qv).1),
      ("query_attention_mask", (tok qv).2.1),
      ("query_token_type_ids", (tok qv).2.2)]) "doc" dv hlook2
    (by decide) (by decide) (by decide) (by decide) (by decide)
    (by decide) (by decide) (by decide) (by decide) (by decide)
    (by decide) (by decide) hfresh2
  rw [show "doc" ++ "_input_ids" = "doc_input_ids" from rfl,
    show "doc" ++ "_attention_mask" = "doc_attention_mask" from rfl,
    show "doc" ++ "_token_type_ids" = "doc_token_type_ids" from rfl]
    at e2
  have hmain : tokenizeTrainColumns tok cols = some
      (((cols.filter (fun kv => decide (kv.1 ≠ "query"))).filter
          (fun kv => decide (kv.1 ≠ "doc"))) ++
       [("query_input_ids", (tok qv).1),
        ("query_attention_mask", (tok qv).2.1),
        ("query_token_type_ids", (tok qv).2.2),
        ("doc_input_ids", (tok dv).1),
        ("doc_attention_mask", (tok dv).2.1),
        ("doc_token_type_ids", (tok dv).2.2)]) := by
    rw [tokenizeTrainColumns, e1, Option.some_bind, e2]
    congr 1
    rw [List.filter_append]
    simp
  refine ⟨hmain, ?_⟩
  intro res hres
  rw [hmain] at hres
  cases Option.some.inj hres
  have hFFmem : ∀ n ∈ keysOf
      ((cols.filter (fun kv => decide (kv.1 ≠ "query"))).filter
        (fun kv => decide (kv.1 ≠ "doc"))),
      n ∈ keysOf cols ∧ n ≠ "query" ∧ n ≠ "doc" := by
    intro n hn
    obtain ⟨hn1, hdoc⟩ := mem_keysOf_filter _ _ _ hn
    obtain ⟨hn2, hquery⟩ := mem_keysOf_filter _ _ _ hn1
    exact ⟨hn2, hquery, hdoc⟩
  have hnotmem : ∀ bad : String, bad = "query" ∨ bad = "doc" ∨
      (∀ n ∈ keysOf cols, n ≠ bad) →
      bad ∉ keysOf
        ((cols.filter (fun kv => decide (kv.1 ≠ "query"))).filter
          (fun kv => decide (kv.1 ≠ "doc"))) := by
    intro bad hbad hmm
    obtain ⟨hc, hnq, hnd⟩ := hFFmem bad hmm
    rcases hbad with rfl | rfl | hb
    · exact hnq rfl
    · exact hnd rfl
    · exact hb bad hc rfl
  refine ⟨?_, ?_, ?_, ?_, ?_, ?_, ?_, ?_, ?_, ?_, ?_⟩
  · rw [keysOf_append]
    intro hmm
    rcases List.mem_append.1 hmm with h | h
    · exact hnotmem "query" (Or.inl rfl) h
    · simp [keysOf] at h
  · rw [keysOf_append]
    intro hmm
    rcases List.mem_append.1 hmm with h | h
    · exact hnotmem "doc" (Or.inr (Or.inl rfl)) h
    · simp [keysOf] at h
  · rw [keysOf_append]
    intro hmm
    rcases List.mem_append.1 hmm with h | h
    · exact hnotmem "input_ids"
        (Or.inr (Or.inr (fun n hn => (hfresh n hn).1))) h
    · simp [keysOf] at h
  · rw [keysOf_append]
    intro hmm
    rcases List.mem_append.1 hmm with h | h
    · exact hnotmem "attention_mask"
        (Or.inr (Or.inr (fun n hn => (hfresh n hn).2.1))) h
    · simp [keysOf] at h
  · rw [keysOf_append]
    intro hmm
    rcases List.mem_append.1 hmm with h | h
    · exact hnotmem "token_type_ids"
        (Or.inr (Or.inr (fun n hn => (hfresh n hn).2.2.1))) h
    · simp [keysOf] at h
  · rw [lookupCol_append_none _ _ _ (lookupCol_eq_none_of_not_mem _ _
      (hnotmem "query_input_ids"
        (Or.inr (Or.inr (fun n hn => (hfresh n hn).2.2.2.1)))))]
    simp [lookupCol]
  · rw [lookupCol_append_none _ _ _ (lookupCol_eq_none_of_not_mem _ _
      (hnotmem "query_attention_mask"
        (Or.inr (Or.inr (fun n hn => (hfresh n hn).2.2.2.2.1)))))]
    simp [lookupCol]
  · rw [lookupCol_append_none _ _ _ (lookupCol_eq_none_of_not_mem _ _
      (hnotmem "query_token_type_ids"
        (Or.inr (Or.inr (fun n hn => (hfresh n hn).2.2.2.2.2.1)))))]
    simp [lookupCol]
  · rw [lookupCol_append_none _ _ _ (lookupCol_eq_none_of_not_mem _ _
      (hnotmem "doc_input_ids"
        (Or.inr (Or.inr (fun n hn => (hfresh n hn).2.2.2.2.2.2.1)))))]
    simp [lookupCol]
  · rw [lookupCol_append_none _ _ _ (lookupCol_eq_none_of_not_mem _ _
      (hnotmem "doc_attention_mask"
        (Or.inr (Or.inr (fun n hn => (hfresh n hn).2.2.2.2.2.2.2.1)))))]
    simp [lookupCol]
  · rw [lookupCol_append_none _ _ _ (lookupCol_eq_none_of_not_mem _ _
      (hnotmem "doc_token_type_ids"
        (Or.inr (Or.inr (fun n hn => (hfresh n hn).2.2.2.2.2.2.2.2)))))]
    simp [lookupCol]

/-- A concrete tokenizer and dataset for instantiating the tokenization
theorem: column content is `ℕ` and the tokenizer outputs `v+1`, `v+2`,
`v+3`. -/
def witTok : ℕ → ℕ × ℕ × ℕ := fun v => (v + 1, v + 2, v + 3)

/-- A concrete three-column dataset with `query`, `doc` and `label`. -/
def witCols : List (String × ℕ) :=
  [("query", 10), ("doc", 20), ("label", 30)]

/-- C10 witness: the concrete dataset `witCols` under `witTok`. -/
theorem tokenize_train_prefixed_columns_only_witness :
    lookupCol witCols "query" = some 10 ∧
    lookupCol witCols "doc" = some 20 ∧
    (∀ n ∈ keysOf witCols,
      n ≠ "input_ids" ∧ n ≠ "attention_mask" ∧ n ≠ "token_type_ids" ∧
      n ≠ "query_input_ids" ∧ n ≠ "query_attention_mask" ∧
      n ≠ "query_token_type_ids" ∧ n ≠ "doc_input_ids" ∧
      n ≠ "doc_attention_mask" ∧ n ≠ "doc_token_type_ids") ∧
    (tokenizeTrainColumns witTok witCols = some
      (((witCols.filter (fun kv => decide (kv.1 ≠ "query"))).filter
          (fun kv => decide (kv.1 ≠ "doc"))) ++
       [("query_input_ids", (witTok 10).1),
        ("query_attention_mask", (witTok 10).2.1),
        ("query_token_type_ids", (witTok 10).2.2),
        ("doc_input_ids", (witTok 20).1),
        ("doc_attention_mask", (witTok 20).2.1),
        ("doc_token_type_ids", (witTok 20).2.2)]) ∧
     (∀ res, tokenizeTrainColumns witTok witCols = some res →
       "query" ∉ keysOf res ∧ "doc" ∉ keysOf res ∧
       "input_ids" ∉ keysOf res ∧ "attention_mask" ∉ keysOf res ∧
       "token_type_ids" ∉ keysOf res ∧
       lookupCol res "query_input_ids" = some (witTok 10).1 ∧
       lookupCol res "query_attention_mask" = some (witTok 10).2.1 ∧
       lookupCol res "query_token_type_ids" = some (witTok 10).2.2 ∧
       lookupCol res "doc_input_ids" = some (witTok 20).1 ∧
       lookupCol res "doc_attention_mask" = some (witTok 20).2.1 ∧
       lookupCol res "doc_token_type_ids" = some (witTok 20).2.2)) :=
  ⟨by decide, by decide, by decide,
   tokenize_train_prefixed_columns_only witTok witCols 10 20
     (by decide) (by decide) (by decide)⟩

/-- C8 counterexample: on empty logits the metric evaluation produces no
result at all — the `np.max` reduction inside `softmax` raises before
any division is reached, so the empty case errors instead of being
handled (here with a concrete external scorer that would simply pair its
arguments). -/
theorem compute_f1_empty_logits_not_handled :
    computeF1 (fun preds labels => (preds, labels)) [] [] = none ∧
    softmax [] = none :=
  ⟨rfl, rfl⟩

/-- C8 (amended): the metric function does not guard against empty
batches; for empty logits its softmax normalization fails at the
`np.max` reduction (a raised `ValueError`, modelled `none`) before the
division is ever reached, and the metric returns no value, whatever the
labels and whatever the external scorer. -/
theorem compute_f1_empty_logits_errors {Out : Type}
    (metricCompute : List (List ℝ) → List ℝ → Out) (labels : List ℝ) :
    computeF1 metricCompute [] labels = none ∧ softmax [] = none :=
  ⟨rfl, rfl⟩

/-- Column sums of an elementwise-exponentiated array are nonnegative. -/
theorem colSum_expShift_nonneg (M : ℝ) (x : List (List ℝ)) (j : ℕ) :
    0 ≤ colSum (expShift M x) j := by
  induction x with
  | nil => simp [colSum, expShift]
  | cons r t ih =>
    simp only [expShift, List.map_cons, colSum, List.sum_cons] at ih ⊢
    refine add_nonneg ?_ ih
    by_cases hj : j < r.length
    · rw [List.getD_eq_getElem _ _ (by simpa using hj), List.getElem_map]
      exact le_of_lt (Real.exp_pos _)
    · rw [List.getD_eq_default _ _ (by simpa using not_lt.1 hj)]

/-- Column sums of an elementwise-exponentiated array are positive when
the array is non-empty and column `j` exists in every row. -/
theorem colSum_expShift_pos (M : ℝ) (x : List (List ℝ)) (j : ℕ)
    (hne : x ≠ []) (hlen : ∀ r ∈ x, j < r.length) :
    0 < colSum (expShift M x) j := by
  match x with
  | [] => exact absurd rfl hne
  | r :: t =>
    simp only [expShift, List.map_cons, colSum, List.sum_cons]
    have hj : j < r.length := hlen r (List.mem_cons_self r t)
    have h1 : 0 < (r.map (fun v => Real.exp (v - M))).getD j 0 := by
      rw [List.getD_eq_getElem _ _ (by simpa using hj), List.getElem_map]
      exact Real.exp_pos _
    have h2 := colSum_expShift_nonneg M t j
    simp only [expShift, colSum] at h2
    linarith

/-- Dividing every entry of column `j` by a fixed per-column constant
divides the column sum by it. -/
theorem colSum_div_const (rows : List (List ℝ)) (D : ℕ → ℝ) (j : ℕ)
    (hlen : ∀ r ∈ rows, j < r.length) :
    colSum (rows.map (fun r => r.mapIdx (fun i v => v / D i))) j =
      colSum rows j / D j := by
  induction rows with
  | nil => simp [colSum]
  | cons r t ih =>
    have hj : j < r.length := hlen r (List.mem_cons_self r t)
    simp only [colSum, List.map_cons, List.sum_cons]
    rw [List.getD_eq_getElem _ _ (by simpa using hj),
      List.getD_eq_getElem _ _ (by simpa [List.length_mapIdx] using hj),
      List.getElem_mapIdx]
    have ht := ih (fun r hr => hlen r (List.mem_cons_of_mem _ hr))
    simp only [colSum] at ht
    rw [ht, add_div]

/-- Rows of `expShift` keep their lengths. -/
theorem expShift_row_lengths (M : ℝ) (x : List (List ℝ)) (j : ℕ)
    (hlen : ∀ r ∈ x, j < r.length) :
    ∀ r ∈ expShift M x, j < r.length := by
  intro r hr
  obtain ⟨r0, hr0, rfl⟩ := List.mem_map.1 hr
  simpa using hlen r0 hr0

/-- Each column of `softmaxVal` sums to `1` (nonempty rectangular
input). -/
theorem colSum_softmaxVal_eq_one (x : List (List ℝ)) (j : ℕ)
    (hne : x ≠ []) (hlen : ∀ r ∈ x, j < r.length) :
    colSum (softmaxVal x) j = 1 := by
  have hE := expShift_row_lengths (listMax x.flatten) x j hlen
  have hpos := colSum_expShift_pos (listMax x.flatten) x j hne hlen
  simp only [softmaxVal]
  rw [colSum_div_const _ _ _ hE]
  exact div_self (ne_of_gt hpos)

/-- Folding `max` commutes with adding a constant. -/
theorem foldl_max_shift (c : ℝ) :
    ∀ (xs : List ℝ) (a : ℝ),
      (xs.map (fun v => v + c)).foldl max (a + c) = xs.foldl max a + c
  | [], _ => rfl
  | y :: t, a => by
    simp only [List.map_cons, List.foldl_cons]
    rw [max_add_add_right, foldl_max_shift c t (max a y)]

/-- The global maximum commutes with adding a constant (nonempty
input — `np.max` is only ever called on nonempty data). -/
theorem listMax_shift (c : ℝ) (l : List ℝ) (hl : l ≠ []) :
    listMax (l.map (fun v => v + c)) = listMax l + c := by
  match l with
  | [] => exact absurd rfl hl
  | x :: xs =>
    simp only [List.map_cons, listMax]
    exact foldl_max_shift c xs x

/-- Shifting all entries by `c` and the reference point by `c` leaves
the exponentials unchanged. -/
theorem expShift_shift (M c : ℝ) (x : List (List ℝ)) :
    expShift (M + c) (x.map (fun r => r.map (fun v => v + c))) =
      expShift M x := by
  simp only [expShift, List.map_map]
  congr 1
  funext r
  simp only [Function.comp_apply, List.map_map]
  congr 1
  funext v
  simp only [Function.comp_apply]
  rw [show v + c - (M + c) = v - M from by ring]

/-- Flattening commutes with the elementwise shift. -/
theorem flatten_shift (c : ℝ) (x : List (List ℝ)) :
    (x.map (fun r => r.map (fun v => v + c))).flatten =
      x.flatten.map (fun v => v + c) :=
  (List.map_flatten _ _).symm

/-- `softmaxVal` is invariant under adding one constant to every entry:
the shifted global maximum cancels the shift. -/
theorem softmaxVal_shift (x : List (List ℝ)) (c : ℝ)
    (hfl : x.flatten ≠ []) :
    softmaxVal (x.map (fun r => r.map (fun v => v + c))) = softmaxVal x := by
  simp only [softmaxVal]
  rw [flatten_shift, listMax_shift c _ hfl, expShift_shift]

/-- C2 (amended): the `softmax` of `estimators/base.py` normalizes
*columns*, not rows — it subtracts the *global* maximum before
exponentiating and divides each entry by its *column* sum
(`e_x.sum(axis=0)`).  For every rectangular logits array with at least
one row, every column of the output sums to 1, the output is unchanged
when one constant is added to every logit of the array, and `softmax`
returns this value (no error) on such input. -/
theorem softmax_normalizes_columns (x : List (List ℝ)) (k j : ℕ) (c : ℝ)
    (hne : x ≠ []) (hrect : ∀ r ∈ x, r.length = k) (hj : j < k) :
    colSum (softmaxVal x) j = 1 ∧
    softmaxVal (x.map (fun r => r.map (fun v => v + c))) = softmaxVal x ∧
    softmax x = some (softmaxVal x) := by
  have hlen : ∀ r ∈ x, j < r.length := fun r hr => (hrect r hr) ▸ hj
  have hfl : x.flatten ≠ [] := by
    match x with
    | r :: t =>
      have hrk : r.length = k := hrect r (List.mem_cons_self r t)
      have hr : r ≠ [] := by
        intro h
        rw [h] at hrk
        simp at hrk
        omega
      simp [hr]
  refine ⟨colSum_softmaxVal_eq_one x j hne hlen,
    softmaxVal_shift x c hfl, ?_⟩
  rw [softmax, if_neg (by simpa [List.isEmpty_iff] using hfl)]

/-- C2 counterexample: on the 2x1 logits array `[[0], [1]]` the softmax
succeeds, but row 0 of its output does not sum to 1 — the code divides
by *column* sums (`axis=0`), so rows are not normalized. -/
theorem softmax_row_sum_ne_one :
    (rowOf (softmax [[(0 : ℝ)], [1]]) 0).sum ≠ 1 ∧
    softmax [[(0 : ℝ)], [1]] ≠ none := by
  have h1 : softmax [[(0 : ℝ)], [1]] = some (softmaxVal [[0], [1]]) := by
    rw [softmax, if_neg (by simp)]
  constructor
  · rw [h1]
    simp only [rowOf, Option.getD_some]
    simp only [softmaxVal, expShift, colSum, listMax, List.flatten_cons,
      List.flatten_nil, List.map_cons, List.map_nil, List.foldl_cons,
      List.foldl_nil, List.cons_append, List.nil_append, List.mapIdx_cons,
      List.mapIdx_nil, List.getD_cons_zero, List.sum_cons, List.sum_nil]
    have hmax : max (0 : ℝ) 1 = 1 := by norm_num
    rw [hmax]
    have ha : (0 : ℝ) < Real.exp (0 - 1) := Real.exp_pos _
    have hb : Real.exp ((1 : ℝ) - 1) = 1 := by norm_num
    rw [hb]
    intro h
    rw [add_zero, add_zero] at h
    have hpos : (0 : ℝ) < Real.exp (0 - 1) + 1 := by linarith
    rw [div_eq_one_iff_eq (ne_of_gt hpos)] at h
    linarith
  · rw [h1]
    simp

/-- C2 witness: the 2x2 logits array `[[0, 1], [0, 0]]`, column 0,
shift constant 5. -/
theorem softmax_normalizes_columns_witness :
    ([[(0 : ℝ), 1], [0, 0]] : List (List ℝ)) ≠ [] ∧
    (∀ r ∈ ([[(0 : ℝ), 1], [0, 0]] : List (List ℝ)), r.length = 2) ∧
    (0 : ℕ) < 2 ∧
    (colSum (softmaxVal [[(0 : ℝ), 1], [0, 0]]) 0 = 1 ∧
     softmaxVal (([[(0 : ℝ), 1], [0, 0]] : List (List ℝ)).map
         (fun r => r.map (fun v => v + 5))) =
       softmaxVal [[(0 : ℝ), 1], [0, 0]] ∧
     softmax [[(0 : ℝ), 1], [0, 0]] =
       some (softmaxVal [[(0 : ℝ), 1], [0, 0]])) :=
  ⟨by simp,
   by
     intro r hr
     simp only [List.mem_cons, List.not_mem_nil, or_false] at hr
     rcases hr with rfl | rfl <;> rfl,
   by norm_num,
   softmax_normalizes_columns [[(0 : ℝ), 1], [0, 0]] 2 0 5
     (by simp)
     (by
       intro r hr
       simp only [List.mem_cons, List.not_mem_nil, or_false] at hr
       rcases hr with rfl | rfl <;> rfl)
     (by norm_num)⟩

end DenseRetriever
